import Mathlib

/-!
Verification of the parse-to-graph compiler and temporal classifier of the
readerbench/conversational-agent repository (memory-assistant micro-world).

The Lean definitions below are shallow embeddings of the Python sources:
  - `src/pepper/actions/mem_assistant/types.py`           (`MemAssistInfoType`)
  - `src/pepper/actions/mem_assistant/custom_actions.py`  (`get_time_type`,
    `extract_sentence_components`, `ActionGetTime.run`, `ActionStoreTime.run`)
  - `src/pepper/actions/mem_assistant/kb_mem_assistant.py` (`QueryBuilder`,
    `DbBridge`)
  - `src/pepper/actions/sparql_client.py`                 (transport result shape)
  - `src/pepper/components/syntactic_parser.py`           (`__get_dependency_span`)

Python dictionaries with a fixed key set become structures; the loosely typed
`semantic_roles` entries become the recursive `Entity` type; fallible Python
code (subscript on `None`, `list[0]` on an empty list, `split("#")[1]` with no
separator) becomes `Except`/`Option`; the `uuid().hex` fresh-identifier source
becomes an explicit counter threaded through each compile, so that two runs
with the same counter model two runs with the same identifier draws.
-/

/-- Types of information stored in the knowledge base
(`MemAssistInfoType` in `types.py`). -/
inductive MemAssistInfoType where
  | LOC
  | VAL
  | TIME_POINT
  | TIME_START
  | TIME_END
  | TIME_RANGE
  | TIME_DURATION
deriving DecidableEq, Repr

/-- The `.value` string of each enum member, as in `types.py`. -/
def MemAssistInfoType.value : MemAssistInfoType → String
  | .LOC => "LOC"
  | .VAL => "VAL"
  | .TIME_POINT => "TIME_POINT"
  | .TIME_START => "TIME_START"
  | .TIME_END => "TIME_END"
  | .TIME_RANGE => "TIME_RANGE"
  | .TIME_DURATION => "TIME_DURATION"

/-- A semantic-role entity as produced by `SyntacticParser.process`: a Python
dict with keys `question`, `pre` (optional), `value`, `lemma`, `ext_value`,
`specifiers`.  Specifier entries use the same shape (their `ext_value` is
unused), so one recursive type covers both. -/
inductive Entity where
  | mk (question : String) (pre : Option String) (value : String)
      (lemma' : String) (ext_value : String) (specifiers : List Entity)

def Entity.question : Entity → String
  | .mk q _ _ _ _ _ => q

def Entity.pre : Entity → Option String
  | .mk _ p _ _ _ _ => p

def Entity.value : Entity → String
  | .mk _ _ v _ _ _ => v

def Entity.lemma' : Entity → String
  | .mk _ _ _ l _ _ => l

def Entity.ext_value : Entity → String
  | .mk _ _ _ _ x _ => x

def Entity.specifiers : Entity → List Entity
  | .mk _ _ _ _ _ s => s

/-- Python `str.startswith(p)`: the code points of `p` are a prefix of those
of `s`.  Implemented structurally over the character lists so that concrete
instances reduce inside the kernel. -/
def pyStartswith (s p : String) : Bool :=
  p.data.isPrefixOf s.data

/-- Python `str.strip()` with no argument: remove leading and trailing
whitespace. -/
def pyStrip (s : String) : String :=
  ⟨((s.data.dropWhile Char.isWhitespace).reverse.dropWhile
      Char.isWhitespace).reverse⟩

/-- Accumulator loop for `pySplit`: current partial word (reversed) plus the
remaining characters. -/
def pySplitAux : List Char → List Char → List String
  | [], cur => if cur.isEmpty then [] else [⟨cur.reverse⟩]
  | c :: cs, cur =>
    if c.isWhitespace then
      if cur.isEmpty then pySplitAux cs []
      else ⟨cur.reverse⟩ :: pySplitAux cs []
    else pySplitAux cs (c :: cur)

/-- Python `str.split()` with no argument: split on whitespace runs, dropping
empty pieces. -/
def pySplit (s : String) : List String :=
  pySplitAux s.data []

/-- Python membership test `action in [...]` where `action` may be `None`
(`None` is never a member of a list of strings). -/
def actionIn (action : Option String) (ws : List String) : Bool :=
  match action with
  | some a => ws.contains a
  | none => false

/-- Embedding of `get_time_type(ent, action)` from `custom_actions.py` lines
149-166: determine the type of a timestamp phrase.  The Python body
initialises `info_type = TIME_POINT` and then runs an if/elif chain; the
regex `^(?:acum|peste|după|la) ` is the disjunction of the four
particle-plus-space checks. -/
def get_time_type (ent : Entity) (action : Option String) : MemAssistInfoType :=
  let question := ent.question
  let phrase := pyStrip ((ent.pre.getD "") ++ " " ++ ent.ext_value)
  if pyStartswith phrase "de " || actionIn action ["începe", "porni"] then
    .TIME_START
  else if pyStartswith phrase "până " ||
      actionIn action ["termina", "sfârși", "încheia", "finaliza"] then
    .TIME_END
  else if question == "cât timp" &&
      (pyStartswith phrase "acum " || pyStartswith phrase "peste " ||
       pyStartswith phrase "după " || pyStartswith phrase "la ") then
    .TIME_POINT
  else if question == "cât timp" || phrase == "cât timp" then
    .TIME_DURATION
  else
    .TIME_POINT

/-- Spec-side rendering of claim C1's cascade, stated over the already-built
phrase: first-match-wins over the four rules, defaulting to `TIME_POINT`.
Its particle tests are written as the claim states them (a leading particle
from a named set, as a word, hence followed by a space). -/
def classifyTimeRole (question phrase : String) (action : Option String) :
    MemAssistInfoType :=
  if pyStartswith phrase "de " || actionIn action ["începe", "porni"] then
    .TIME_START
  else if pyStartswith phrase "până " ||
      actionIn action ["termina", "sfârși", "încheia", "finaliza"] then
    .TIME_END
  else if question == "cât timp" &&
      (["acum", "peste", "după", "la"].any fun p => pyStartswith phrase (p ++ " ")) then
    .TIME_POINT
  else if question == "cât timp" || phrase == "cât timp" then
    .TIME_DURATION
  else
    .TIME_POINT

/-- A plain `când`-role entity carrying only a phrase, used for the concrete
examples of claims C1 and C7. -/
def timeEnt (question ext : String) : Entity :=
  .mk question none ext ext ext []

/-- Claim C1: `get_time_type` implements exactly the first-match-wins cascade
(TIME_START by from-particle/begin-verb; else TIME_END by until-particle/one
of the four end-verbs; else TIME_POINT for a 'cât timp' role with a leading
absolute-time particle among acum/peste/după/la; else TIME_DURATION for a
'cât timp' role or the literal phrase "cât timp"; else TIME_POINT), and in
particular classifies "de la ora 18" as TIME_START, "până vineri" as
TIME_END, a 'cât timp'-role "2 ore" as TIME_DURATION and a 'cât timp'-role
"acum 2 ore" as TIME_POINT. -/
theorem c1_get_time_type_cascade :
    (∀ (ent : Entity) (action : Option String),
      get_time_type ent action =
        classifyTimeRole ent.question
          (pyStrip ((ent.pre.getD "") ++ " " ++ ent.ext_value)) action) ∧
    get_time_type (timeEnt "când" "de la ora 18") (some "verb") = .TIME_START ∧
    get_time_type (timeEnt "când" "până vineri") (some "verb") = .TIME_END ∧
    get_time_type (timeEnt "cât timp" "2 ore") (some "verb") = .TIME_DURATION ∧
    get_time_type (timeEnt "cât timp" "acum 2 ore") (some "verb") = .TIME_POINT := by
  refine ⟨fun ent action => ?_, by decide, by decide,
    by decide, by decide⟩
  have h1 : ("acum" : String) ++ " " = "acum " := by decide
  have h2 : ("peste" : String) ++ " " = "peste " := by decide
  have h3 : ("după" : String) ++ " " = "după " := by decide
  have h4 : ("la" : String) ++ " " = "la " := by decide
  simp only [get_time_type, classifyTimeRole, List.any_cons, List.any_nil,
    Bool.or_false, Bool.or_assoc, h1, h2, h3, h4]

/-- A result row as both bridge get-operations build it: the fact value first
(Python index 0), then the bound entity strings (`val[1:]`). -/
abbrev ResultRow := String × List String

/-- Embedding of `DbBridge.__prettify_result` (`kb_mem_assistant.py` lines
258-264; the older file's `__prettyfy_result` is textually identical): empty
list gives the fixed sentinel, a single row gives its fact value (`values[0][0]`),
and two or more rows give one line per row,
`"▪ <entities joined by comma-space>: ➜ <value>"`, joined by newlines. -/
def prettify_result : List ResultRow → String
  | [] => "Nu știu"
  | [v] => v.1
  | values =>
    String.intercalate "\n"
      (values.map fun val => "▪ " ++ String.intercalate ", " val.2 ++ ": ➜ " ++ val.1)

/-- Claim C4: the shared result formatter returns the "Nu știu" sentinel on an
empty list, the single row's fact value alone on one row, and for two or more
rows one bullet line per row, entities joined by ", " followed by ": ➜ " and
the fact value (the claim's ASCII "-> " arrow), in store return order. -/
theorem c4_prettify_result_cases :
    prettify_result [] = "Nu știu" ∧
    (∀ (v : ResultRow), prettify_result [v] = v.1) ∧
    (∀ (values : List ResultRow), 2 ≤ values.length →
      prettify_result values =
        String.intercalate "\n"
          (values.map fun val =>
            "▪ " ++ String.intercalate ", " val.2 ++ ": ➜ " ++ val.1)) := by
  refine ⟨rfl, fun v => rfl, fun values h => ?_⟩
  match values with
  | [] => simp at h
  | [v] => simp at h
  | a :: b :: rest => rfl

/-- Witness for claim C4 at a concrete two-row result list. -/
theorem c4_prettify_result_cases_witness :
    prettify_result [("ora 18", ["eu"]), ("ora 20", ["el"])] =
      "▪ eu: ➜ ora 18\n▪ el: ➜ ora 20" := by
  have h := c4_prettify_result_cases.2.2 [("ora 18", ["eu"]), ("ora 20", ["el"])]
    (by decide)
  rw [h]
  rfl

/-- An RDF term of one SPARQL-JSON binding: a `type` tag (for instance `uri`
or `literal`) and a `value` string, as consumed by `value(entry)` in
`kb_mem_assistant.py` lines 104-108. -/
structure RdfTerm where
  type : String
  value : String

/-- Embedding of `value(entry)`: for a `uri` term take the fragment after the
first `#` (`val.split("#")[1]`, an `IndexError` when no `#` is present),
otherwise the raw value. -/
def termValue (entry : RdfTerm) : Except String String :=
  if entry.type == "uri" then
    match (entry.value.splitOn "#").get? 1 with
    | some v => .ok v
    | none => .error "IndexError: list index out of range"
  else
    .ok entry.value

/-- One row of the `get_value` SELECT result: the `val` and `entity`
variable bindings. -/
structure GetValueRecord where
  val : RdfTerm
  entity : RdfTerm

/-- One row of the `get_action_time` SELECT result: the `time` binding plus
one binding per collected noun-phrase node. -/
structure GetActionRecord where
  time : RdfTerm
  nps : List RdfTerm

/-- Embedding of the result-processing tail of `DbBridge.get_value`
(`kb_mem_assistant.py` lines 158-161).  The argument is what the transport
collaborator `execute_sparql_query` returned: `none` models Python `None`
(HTTP failure or retries exhausted in `sparql_client.get`), `some rows` a
parsed binding list.  Python iterates `result` directly, so `none` raises
`TypeError: 'NoneType' object is not iterable`, modeled as `.error`. -/
def get_value_from_result (result : Option (List GetValueRecord)) :
    Except String String :=
  match result with
  | none => .error "TypeError: NoneType object is not iterable"
  | some result => do
    let values ← result.mapM fun record => do
      let v ← termValue record.val
      let e ← termValue record.entity
      pure ((v, [e]) : ResultRow)
    pure (prettify_result values)

/-- Embedding of the result-processing tail of `DbBridge.get_action_time`
(`kb_mem_assistant.py` lines 253-256), with the same `none`-iteration
failure. -/
def get_action_time_from_result (result : Option (List GetActionRecord)) :
    Except String String :=
  match result with
  | none => .error "TypeError: NoneType object is not iterable"
  | some result => do
    let values ← result.mapM fun record => do
      let t ← termValue record.time
      let es ← record.nps.mapM termValue
      pure ((t, es) : ResultRow)
    pure (prettify_result values)

/-- Claim C2 (refuted): when the transport collaborator exhausts its retries
and returns `None`, both bridge get-operations raise a `TypeError` while
iterating `None` instead of returning the "Nu știu" sentinel; the sentinel is
produced only for an empty (but present) result list. -/
theorem c2_none_result_raises :
    get_value_from_result none =
      .error "TypeError: NoneType object is not iterable" ∧
    get_action_time_from_result none =
      .error "TypeError: NoneType object is not iterable" ∧
    get_value_from_result (some []) = .ok "Nu știu" ∧
    get_action_time_from_result (some []) = .ok "Nu știu" ∧
    get_value_from_result none ≠ .ok "Nu știu" ∧
    get_action_time_from_result none ≠ .ok "Nu știu" := by
  refine ⟨rfl, rfl, rfl, rfl, ?_, ?_⟩ <;> intro h <;> exact Except.noConfusion h

/-- Object position of an emitted RDF triple: a named resource `:name`, a
plain literal `"text"`, or a bracketed anonymous (blank) node with its
property list, as they appear in the interpolated SPARQL text of
`kb_mem_assistant.py`. -/
inductive RdfObj where
  | id (s : String)
  | lit (s : String)
  | blank (props : List (String × RdfObj))

/-- One emitted triple: named subject `:subj`, property name, object.  The
statement text built by string interpolation in the source is this list of
triples rendered in order; modeling it structurally keeps node and edge
claims provable. -/
structure Triple where
  subj : String
  pred : String
  obj : RdfObj

/-- The hex identifier drawn by the n-th call of `uuid().hex` within one
request, with the draw counter made explicit. -/
def fid (c : Nat) : String :=
  "u" ++ toString c

/-- The node-linking triples of the specifier loop of
`query_create_noun_phrase`: a `:SPEC` edge from the instance for a
`care` / `ce fel de` specifier, a reversed `:HAS` edge for an `al cui`
specifier, and nothing for any other question tag. -/
def linkTriples (eid innerId question : String) : List Triple :=
  if question == "care" || question == "ce fel de" then
    [⟨eid, "SPEC", .id innerId⟩]
  else if question == "al cui" then
    [⟨innerId, "HAS", .id eid⟩]
  else []

mutual

/-- Embedding of `QueryBuilder.query_create_noun_phrase` from
`kb_mem_assistant.py` lines 22-71.  Returns the emitted triples, the root
node id (`eid`), the composite surface string, and the counter after all
`uuid().hex` draws.  The `match_existing` flag is accepted exactly as in the
source, where nothing in the body reads it (both branches carry a
`TODO merge or create` comment). -/
def query_create_noun_phrase : Entity → Bool → Nat →
    List Triple × String × String × Nat
  | .mk _ pre value lemma' _ [], _, c =>
    let eid := fid c
    let string := pyStrip ((pre.getD "") ++ " " ++ value)
    ([⟨eid, "a", .id "Class"⟩, ⟨eid, "value", .id lemma'⟩,
      ⟨eid, "pre", .lit (pre.getD "")⟩], eid, string, c + 1)
  | .mk _ pre value lemma' _ (s :: ss), _, c =>
    let eid := fid c
    let string := pyStrip ((pre.getD "") ++ " " ++ value)
    let clsId := fid (c + 1)
    let base : List Triple :=
      [⟨clsId, "a", .id "Class"⟩, ⟨clsId, "value", .id lemma'⟩,
       ⟨clsId, "pre", .lit (pre.getD "")⟩,
       ⟨eid, "a", .id "Instance"⟩, ⟨eid, "IS_A", .id clsId⟩]
    let (ts, str, c') := create_specifiers eid (s :: ss) (base, string, c + 2)
    (ts ++ [⟨eid, "value", .lit str⟩], eid, str, c')

/-- The specifier loop of `query_create_noun_phrase`: recursively compile
each specifier in merge mode, link it with `linkTriples`, and accumulate its
composite surface string. -/
def create_specifiers (eid : String) : List Entity →
    List Triple × String × Nat → List Triple × String × Nat
  | [], acc => acc
  | spec :: rest, (ts, string, c) =>
    let (its, innerId, innerStr, c') := query_create_noun_phrase spec true c
    create_specifiers eid rest
      (ts ++ its ++ linkTriples eid innerId spec.question,
       string ++ " " ++ innerStr, c')

end

/-- Claim C10: the `match_existing` flag of the mem-assistant create compiler
has no effect — for the same entity and the same fresh-identifier draws, both
flag values yield the same emitted triples, root id and composite string. -/
theorem c10_match_existing_no_effect :
    ∀ (e : Entity) (b b' : Bool) (c : Nat),
      query_create_noun_phrase e b c = query_create_noun_phrase e b' c := by
  intro e b b' c
  cases e with
  | mk q pre v l x specs => cases specs <;> rfl

/-- The entity of the end-to-end example of claim C5:
question `ce`, lemma "carte", one `care` specifier "roșie". -/
def carteEntity : Entity :=
  .mk "ce" none "carte" "carte" "carte" [.mk "care" none "roșie" "roșie" "roșie" []]

/-- Claim C5: compiling the "carte"/"roșie" entity in create mode emits the
parent as exactly two nodes — a Class node "carte" (with its `pre` attribute)
and an Instance node linked to it by an IS_A edge — then a separately created
Class node for "roșie" linked to the instance by a SPEC edge, and finally
sets the instance's composite value attribute to "carte roșie"; the composite
surface string returned is also "carte roșie". -/
theorem c5_carte_rosie_create :
    query_create_noun_phrase carteEntity false 0 =
      ([⟨"u1", "a", .id "Class"⟩, ⟨"u1", "value", .id "carte"⟩,
        ⟨"u1", "pre", .lit ""⟩,
        ⟨"u0", "a", .id "Instance"⟩, ⟨"u0", "IS_A", .id "u1"⟩,
        ⟨"u2", "a", .id "Class"⟩, ⟨"u2", "value", .id "roșie"⟩,
        ⟨"u2", "pre", .lit ""⟩,
        ⟨"u0", "SPEC", .id "u2"⟩,
        ⟨"u0", "value", .lit "carte roșie"⟩],
       "u0", "carte roșie", 3) := by
  rfl

/-- Number of node declarations in an emitted triple list: each node block of
the interpolated statement text declares its node with exactly one `a`
(rdf:type) property, so nodes are counted by `a`-triples. -/
def countNodes (ts : List Triple) : Nat :=
  (ts.filter fun t => t.pred == "a").length

mutual

/-- Node-count law actually satisfied by the create compiler: one node for an
entity without specifiers, and two direct nodes (Class and Instance) plus the
recursive contributions of the specifiers otherwise. -/
def codeCount : Entity → Nat
  | .mk _ _ _ _ _ [] => 1
  | .mk _ _ _ _ _ (s :: ss) => 2 + codeCountList (s :: ss)

/-- Sum of `codeCount` over a specifier list. -/
def codeCountList : List Entity → Nat
  | [] => 0
  | s :: ss => codeCount s + codeCountList ss

end

mutual

/-- Node-count formula asserted by claim C6, taken at its word: one node for
an entity without specifiers, and `1 + k` direct nodes plus the recursive
contributions for an entity with `k` specifiers. -/
def claimCount : Entity → Nat
  | .mk _ _ _ _ _ [] => 1
  | .mk _ _ _ _ _ (s :: ss) => 1 + (s :: ss).length + claimCountList (s :: ss)

/-- Sum of `claimCount` over a specifier list. -/
def claimCountList : List Entity → Nat
  | [] => 0
  | s :: ss => claimCount s + claimCountList ss

end

theorem countNodes_append (a b : List Triple) :
    countNodes (a ++ b) = countNodes a + countNodes b := by
  simp [countNodes, List.filter_append]

theorem linkTriples_countNodes (eid innerId question : String) :
    countNodes (linkTriples eid innerId question) = 0 := by
  unfold linkTriples
  split
  · simp [countNodes]
  · split <;> simp [countNodes]

mutual

theorem create_countNodes :
    ∀ (e : Entity) (b : Bool) (c : Nat),
      countNodes (query_create_noun_phrase e b c).1 = codeCount e
  | .mk q pre v l x [], b, c => by
    simp [query_create_noun_phrase, codeCount, countNodes]
  | .mk q pre v l x (s :: ss), b, c => by
    have h := create_specifiers_countNodes (fid c) (s :: ss)
      ([⟨fid (c + 1), "a", .id "Class"⟩, ⟨fid (c + 1), "value", .id l⟩,
        ⟨fid (c + 1), "pre", .lit (pre.getD "")⟩,
        ⟨fid c, "a", .id "Instance"⟩, ⟨fid c, "IS_A", .id (fid (c + 1))⟩],
       pyStrip ((pre.getD "") ++ " " ++ v), c + 2)
    simp only [query_create_noun_phrase, codeCount]
    rw [countNodes_append, h]
    simp [countNodes]

theorem create_specifiers_countNodes :
    ∀ (eid : String) (specs : List Entity)
      (acc : List Triple × String × Nat),
      countNodes (create_specifiers eid specs acc).1 =
        countNodes acc.1 + codeCountList specs
  | eid, [], acc => by
    simp [create_specifiers, codeCountList]
  | eid, spec :: rest, (ts, string, c) => by
    have hs := create_countNodes spec true c
    rcases hq : query_create_noun_phrase spec true c with ⟨its, innerId, innerStr, c'⟩
    have hr := create_specifiers_countNodes eid rest
      (ts ++ its ++ linkTriples eid innerId spec.question,
       string ++ " " ++ innerStr, c')
    rw [hq] at hs
    simp only [create_specifiers, hq]
    rw [hr]
    simp only [countNodes_append, linkTriples_countNodes]
    simp only [codeCountList]
    simp at hs
    omega

end

/-- An entity with two simple `care` specifiers, refuting claim C6's
`1 + k` direct-node count at `k = 2`. -/
def twoSpecEntity : Entity :=
  .mk "ce" none "masă" "masă" "masă"
    [.mk "care" none "mare" "mare" "mare" [],
     .mk "care" none "verde" "verde" "verde" []]

/-- Claim C6 (counterexample): for the entity with two simple specifiers the
compiler emits 4 nodes in total (Class, Instance and one Class node per
specifier: 2 direct plus 2 recursive), while the claim's `1 + k` direct-node
formula predicts 1 + 2 direct plus 2 recursive = 5; the claimed count law is
therefore false at `k = 2`. -/
theorem c6_counterexample_two_specifiers :
    countNodes (query_create_noun_phrase twoSpecEntity false 0).1 = 4 ∧
    claimCount twoSpecEntity = 5 ∧
    countNodes (query_create_noun_phrase twoSpecEntity false 0).1 ≠
      claimCount twoSpecEntity := by
  refine ⟨rfl, rfl, ?_⟩
  intro h
  simp [twoSpecEntity, claimCount, claimCountList] at h
  revert h
  decide

/-- Claim C6 (amended): an entity with an empty specifier list compiles to
exactly the single Class node carrying the lemma and the preposition as
attributes; an entity with specifiers emits 2 direct nodes (a Class node and
an Instance node) plus whatever each specifier's recursive compilation
contributes, so the total node count obeys `codeCount` (1 without
specifiers, `2 + Σ` over specifiers otherwise) by structural induction. -/
theorem c6_create_node_count :
    (∀ (e : Entity) (b : Bool) (c : Nat), e.specifiers = [] →
      (query_create_noun_phrase e b c).1 =
        [⟨fid c, "a", .id "Class"⟩, ⟨fid c, "value", .id e.lemma'⟩,
         ⟨fid c, "pre", .lit (e.pre.getD "")⟩]) ∧
    (∀ (e : Entity) (b : Bool) (c : Nat),
      countNodes (query_create_noun_phrase e b c).1 = codeCount e) := by
  constructor
  · intro e b c h
    cases e with
    | mk q pre v l x specs =>
      cases specs with
      | nil => rfl
      | cons s ss => simp [Entity.specifiers] at h
  · exact create_countNodes

/-- Witness for claim C6's amended theorem at a specifier-free entity and at
the two-specifier entity. -/
theorem c6_create_node_count_witness :
    (query_create_noun_phrase (.mk "ce" none "carte" "carte" "carte" []) false 0).1 =
      [⟨"u0", "a", .id "Class"⟩, ⟨"u0", "value", .id "carte"⟩,
       ⟨"u0", "pre", .lit ""⟩] ∧
    countNodes (query_create_noun_phrase twoSpecEntity false 0).1 =
      codeCount twoSpecEntity := by
  constructor
  · exact c6_create_node_count.1 (.mk "ce" none "carte" "carte" "carte" []) false 0 rfl
  · exact c6_create_node_count.2 twoSpecEntity false 0

/-- The components dict built by `extract_sentence_components`: subject,
action, direct object (`ce`), locations and classified time phrases.  The
Python placeholder string for a missing subject or action is modeled as
`none`. -/
structure SentenceComponents where
  subj : Option Entity
  action : Option String
  ce : Option Entity
  loc : List Entity
  time : List (String × MemAssistInfoType)

/-- Embedding of `DbBridge.store_action` from `kb_mem_assistant.py` lines
163-205, with the `uuid().hex` draws threaded through the counter.  The
source draws a fresh id `act` right after compiling the subject, but the
`:ACTION` triple it then emits targets a bracketed anonymous node
`[ a :action ; :value: ... ]`; `act` is used only as the subject of the
`:CE`, `:LOC` and time triples.  A missing subject (placeholder) would make
the Python subscript `components['subj']['specifiers']` raise, hence
`none`. -/
def store_action (components : SentenceComponents) (c : Nat) :
    Option (List Triple × Nat) :=
  match components.subj with
  | none => none
  | some subj =>
    let (q1, subjId, _, c1) := query_create_noun_phrase subj true c
    let act := fid c1
    let c2 := c1 + 1
    let ts := q1 ++
      [(⟨subjId, "ACTION",
        .blank [("a", .id "action"),
                ("value:", .lit (components.action.getD "?"))]⟩ : Triple)]
    let (ts, c3) :=
      match components.ce with
      | some ce =>
        let (q2, nodeId, _, c') := query_create_noun_phrase ce false c2
        (ts ++ q2 ++ [(⟨act, "CE", .id nodeId⟩ : Triple)], c')
      | none => (ts, c2)
    let (ts, c4) := components.loc.foldl
      (fun (acc : List Triple × Nat) loc =>
        let (ql, locId, _, c') := query_create_noun_phrase loc false acc.2
        (acc.1 ++ ql ++ [(⟨act, "LOC", .id locId⟩ : Triple)], c'))
      (ts, c3)
    let ts := components.time.foldl
      (fun acc (time : String × MemAssistInfoType) =>
        acc ++ [(⟨act, time.2.value,
          .blank [("a", .id "time"), ("value:", .lit time.1)]⟩ : Triple)])
      ts
    some (ts, c4)

/-- Whether an emitted object is the named resource `:s`. -/
def RdfObj.isId (o : RdfObj) (s : String) : Bool :=
  match o with
  | .id s' => s' == s
  | _ => false

/-- Whether an emitted object is a bracketed anonymous node. -/
def RdfObj.isBlank (o : RdfObj) : Bool :=
  match o with
  | .blank _ => true
  | _ => false

/-- Concrete input refuting claim C3: a subject, an action lemma, a direct
object, one location and one time phrase. -/
def mersComponents : SentenceComponents :=
  { subj := some (.mk "cine" none "eu" "eu" "eu" [])
    action := some "merge"
    ce := some (.mk "ce" none "carte" "carte" "carte" [])
    loc := [.mk "unde" none "parc" "parc" "parc" []]
    time := [("de la ora 18", .TIME_START)] }

/-- Claim C3 (refuted on `mem_assistant/kb_mem_assistant.py`): in the emitted
statement the subject's `:ACTION` edge targets an anonymous bracketed node,
while every `:CE`, `:LOC` and time edge originates at the separately drawn id
`u1` (the unused `act` variable), which no triple connects to anything: the
direct-object, location and time attachments do not originate at the node the
ACTION edge points to, leaving a disconnected fragment.  Concretely, for
`mersComponents` with draws u0 (subject), u1 (`act`), u2 (direct object),
u3 (location): the unique ACTION triple has a blank-node object, each of the
CE, LOC and TIME_START triples has subject `u1`, and `u1` never occurs as any
triple's object. -/
theorem c3_store_action_disconnected :
    ∃ ts : List Triple, store_action mersComponents 0 = some (ts, 4) ∧
      (ts.filter fun t => t.pred == "ACTION").length = 1 ∧
      (∀ t ∈ ts, t.pred = "ACTION" → t.obj.isBlank = true) ∧
      (∀ t ∈ ts, (t.pred = "CE" ∨ t.pred = "LOC" ∨ t.pred = "TIME_START") →
        t.subj = "u1") ∧
      (∀ t ∈ ts, t.obj.isId "u1" = false) := by
  refine ⟨[⟨"u0", "a", .id "Class"⟩, ⟨"u0", "value", .id "eu"⟩,
    ⟨"u0", "pre", .lit ""⟩,
    ⟨"u0", "ACTION", .blank [("a", .id "action"), ("value:", .lit "merge")]⟩,
    ⟨"u2", "a", .id "Class"⟩, ⟨"u2", "value", .id "carte"⟩,
    ⟨"u2", "pre", .lit ""⟩,
    ⟨"u1", "CE", .id "u2"⟩,
    ⟨"u3", "a", .id "Class"⟩, ⟨"u3", "value", .id "parc"⟩,
    ⟨"u3", "pre", .lit ""⟩,
    ⟨"u1", "LOC", .id "u3"⟩,
    ⟨"u1", "TIME_START", .blank [("a", .id "time"), ("value:", .lit "de la ora 18")]⟩],
    rfl, rfl, ?_, ?_, ?_⟩ <;> decide

/-- The interrogative particles filtered out of the time slot in
`extract_sentence_components`. -/
def askParticles : List String :=
  ["când", "cât", "ce", "care"]

/-- The first loop of `extract_sentence_components`: the `ext_value` of the
last `ROOT` entity, if any. -/
def rootAction (roles : List Entity) : Option String :=
  roles.foldl
    (fun action ent =>
      if ent.question == "ROOT" then some ent.ext_value else action)
    none

/-- Whether a time-or-duration entity is skipped by
`extract_sentence_components`: some interrogative particle occurs among the
whitespace-separated words of its extended text. -/
def timeSkipped (ent : Entity) : Bool :=
  askParticles.any fun p => (pySplit ent.ext_value).contains p

/-- The `(text, type)` pair appended to the time slot for a kept time
entity. -/
def timePair (action : Option String) (ent : Entity) :
    String × MemAssistInfoType :=
  (pyStrip ((ent.pre.getD "") ++ " " ++ ent.ext_value), get_time_type ent action)

/-- One iteration of the second loop of `extract_sentence_components`
(`custom_actions.py` lines 185-199). -/
def esc_step (action : Option String) (comps : SentenceComponents)
    (ent : Entity) : SentenceComponents :=
  if ent.question == "cine" then
    { comps with subj := some ent }
  else if ent.question == "ROOT" then
    { comps with action := some ent.ext_value }
  else if ent.question == "ce" then
    { comps with ce := some ent }
  else if ent.question == "unde" then
    { comps with loc := comps.loc ++ [ent] }
  else if ent.question == "când" || ent.question == "cât timp" then
    if timeSkipped ent then comps
    else { comps with time := comps.time ++ [timePair action ent] }
  else comps

/-- Embedding of `extract_sentence_components` from `custom_actions.py` lines
169-201: a first pass records the governing action (`ROOT` extended value),
then a second pass fills the component record, with `când` / `cât timp`
entities appended to the time slot unless one of the interrogative particles
occurs among the words of their extended text. -/
def extract_sentence_components (roles : List Entity) : SentenceComponents :=
  roles.foldl (esc_step (rootAction roles)) ⟨none, none, none, [], []⟩

/-- Whether `extract_sentence_components` keeps an entity in the time
slot. -/
def timeKept (ent : Entity) : Bool :=
  (ent.question == "când" || ent.question == "cât timp") && !(timeSkipped ent)

theorem esc_step_time (action : Option String) (comps : SentenceComponents)
    (ent : Entity) :
    (esc_step action comps ent).time =
      if timeKept ent then comps.time ++ [timePair action ent] else comps.time := by
  unfold esc_step timeKept
  by_cases h1 : ent.question == "cine"
  · have hq : ent.question = "cine" := by simpa using h1
    simp [hq]
  · by_cases h2 : ent.question == "ROOT"
    · have hq : ent.question = "ROOT" := by simpa using h2
      simp [hq]
    · by_cases h3 : ent.question == "ce"
      · have hq : ent.question = "ce" := by simpa using h3
        simp [hq]
      · by_cases h4 : ent.question == "unde"
        · have hq : ent.question = "unde" := by simpa using h4
          simp [hq]
        · by_cases h5 : (ent.question == "când" || ent.question == "cât timp") = true
          · simp only [h1, h2, h3, h4, h5]
            by_cases h6 : timeSkipped ent
            · simp [h5, h6]
            · simp [h5, h6]
          · simp only [Bool.not_eq_true] at h5
            simp [h1, h2, h3, h4, h5]

theorem esc_foldl_time (action : Option String) :
    ∀ (roles : List Entity) (comps : SentenceComponents),
      (roles.foldl (esc_step action) comps).time =
        comps.time ++ (roles.filter timeKept).map (timePair action)
  | [], comps => by simp
  | ent :: rest, comps => by
    rw [List.foldl_cons, esc_foldl_time action rest (esc_step action comps ent),
      esc_step_time]
    by_cases h : timeKept ent
    · simp [List.filter_cons, h]
    · simp only [Bool.not_eq_true] at h
      simp [List.filter_cons, h]

/-- Roles refuting claim C7: a `ROOT` verb and a `când` entity whose extended
text "ce zi" is a two-word phrase, not itself an interrogative particle, but
contains the particle "ce" as one of its words. -/
def ceZiRoles : List Entity :=
  [.mk "ROOT" none "fi" "fi" "fi" [],
   .mk "când" none "ce zi" "zi" "ce zi" []]

/-- Claim C7 (counterexample): the `când` entity "ce zi" is not itself one of
the interrogative particles, so the claim says it is kept in the time slot;
the code nevertheless drops it, because the particle test is run on every
whitespace-separated word of the extended text and "ce" is among the words of
"ce zi".  The resulting time slot is empty. -/
theorem c7_counterexample_ce_zi :
    (extract_sentence_components ceZiRoles).time = [] ∧
    askParticles.contains "ce zi" = false ∧
    ((Entity.mk "când" none "ce zi" "zi" "ce zi" []).question == "când") = true := by
  refine ⟨rfl, rfl, rfl⟩

/-- Claim C7 (amended): `extract_sentence_components` excludes from the time
slot exactly those `când` / `cât timp` entities for which one of the
interrogative particles când/cât/ce/care occurs among the whitespace-separated
words of the extended text, and includes every other time-or-duration entity,
in order, as a pair of the stripped preposition-plus-extended-text and its
classified time type (relative to the last ROOT entity's extended value). -/
theorem c7_time_slot_filter (roles : List Entity) :
    (extract_sentence_components roles).time =
      (roles.filter timeKept).map (timePair (rootAction roles)) := by
  unfold extract_sentence_components
  rw [esc_foldl_time]
  rfl

/-- Witness for claim C7's amended theorem: a kept phrase "acum 2 ore"
(no particle among its words) next to the dropped "ce zi". -/
theorem c7_time_slot_filter_witness :
    (extract_sentence_components
      (ceZiRoles ++ [.mk "cât timp" none "acum 2 ore" "oră" "acum 2 ore" []])).time =
      [("acum 2 ore", .TIME_POINT)] := by
  rw [c7_time_slot_filter]
  rfl

/-- The fixed extraction-failure message of `custom_actions.py` line 16. -/
def entity_extraction_failure_msg : String :=
  "Nu am putut extrage entitățile"

/-- Observable outcome of one `run` of a time action, up to the external
database bridge: a raised Python exception, a message uttered to the
dispatcher, or a database call with the extracted arguments (whose result is
then uttered — the transport side is claim C2's concern). -/
inductive ActionOutcome where
  | raised (err : String)
  | uttered (msg : String)
  | dbGetValue (entity : Entity) (t : MemAssistInfoType)
  | dbGetActionTime (comps : SentenceComponents) (t : MemAssistInfoType)
  | dbSetValue (entity : Entity) (v : String) (t : MemAssistInfoType)
  | dbStoreAction (comps : SentenceComponents)

/-- Extraction loop state of `ActionGetTime.run`: candidate entity, action
lemma, collected time entities, simple-event flag. -/
abbrev GetTimeState := Option Entity × Option String × List Entity × Bool

/-- One iteration of the role loop of `ActionGetTime.run`
(`custom_actions.py` lines 222-232). -/
def get_time_step (st : GetTimeState) (ent : Entity) : GetTimeState :=
  let (entity, action, times, simple) := st
  if ent.question == "ce" || ent.question == "cine" then
    (some ent, action, times, if entity.isSome then false else simple)
  else if ent.question == "când" || ent.question == "cât timp" then
    (entity, action, times ++ [ent], simple)
  else if ent.question == "ROOT" then
    (entity, some ent.lemma', times, simple)
  else
    (entity, action, times, false)

/-- Embedding of `ActionGetTime.run` (`custom_actions.py` lines 211-249)
after the message lookup.  The Python line
`info_type = get_time_type(times[0], action)` runs before any guard, so an
empty `times` list raises `IndexError`; only afterwards does the entity check
decide between a database call and the extraction-failure message. -/
def action_get_time_run (roles : List Entity) : ActionOutcome :=
  match roles.foldl get_time_step (none, none, [], true) with
  | (entity, action, times, simple) =>
    match times with
    | [] => .raised "IndexError: list index out of range"
    | t :: _ =>
      let info_type := get_time_type t action
      match entity with
      | some e =>
        if simple then .dbGetValue e info_type
        else .dbGetActionTime (extract_sentence_components roles) info_type
      | none => .uttered entity_extraction_failure_msg

/-- Extraction loop state of `ActionStoreTime.run`: candidate entity, action
lemma, last time entity, simple-event flag. -/
abbrev StoreTimeState := Option Entity × Option String × Option Entity × Bool

/-- One iteration of the role loop of `ActionStoreTime.run`
(`custom_actions.py` lines 270-280). -/
def store_time_step (st : StoreTimeState) (ent : Entity) : StoreTimeState :=
  let (entity, action, time, simple) := st
  if ent.question == "ce" || ent.question == "cine" then
    (some ent, action, time, if entity.isSome then false else simple)
  else if ent.question == "când" || ent.question == "cât timp" then
    (entity, action, some ent, simple)
  else if ent.question == "ROOT" then
    (entity, some ent.lemma', time, simple)
  else
    (entity, action, time, false)

/-- Embedding of `ActionStoreTime.run` (`custom_actions.py` lines 259-294)
after the message lookup.  `info_type = get_time_type(time, action)` runs
before any guard, so a missing time role leaves `time = None` and the
subscript `None['question']` inside `get_time_type` raises `TypeError`; the
simple-event store path additionally reads `time['pre']` directly, raising
`KeyError` when the entity has no preposition key. -/
def action_store_time_run (roles : List Entity) : ActionOutcome :=
  match roles.foldl store_time_step (none, none, none, true) with
  | (entity, action, time, simple) =>
    match time with
    | none => .raised "TypeError: NoneType object is not subscriptable"
    | some t =>
      let info_type := get_time_type t action
      match entity with
      | some e =>
        if simple then
          match t.pre with
          | none => .raised "KeyError: pre"
          | some p => .dbSetValue e (pyStrip (p ++ " " ++ t.ext_value)) info_type
        else .dbStoreAction (extract_sentence_components roles)
      | none => .uttered entity_extraction_failure_msg

theorem get_time_step_times_nil (st : GetTimeState) (ent : Entity)
    (hq : (ent.question == "când" || ent.question == "cât timp") = false)
    (ht : st.2.2.1 = []) : (get_time_step st ent).2.2.1 = [] := by
  rcases st with ⟨entity, action, times, simple⟩
  simp only at ht
  unfold get_time_step
  by_cases h1 : (ent.question == "ce" || ent.question == "cine") = true
  · simp [h1, ht]
  · simp only [Bool.not_eq_true] at h1
    by_cases h3 : ent.question == "ROOT"
    · simp [h1, hq, h3, ht]
    · simp only [Bool.not_eq_true] at h3
      simp [h1, hq, h3, ht]

theorem store_time_step_time_none (st : StoreTimeState) (ent : Entity)
    (hq : (ent.question == "când" || ent.question == "cât timp") = false)
    (ht : st.2.2.1 = none) : (store_time_step st ent).2.2.1 = none := by
  rcases st with ⟨entity, action, time, simple⟩
  simp only at ht
  unfold store_time_step
  by_cases h1 : (ent.question == "ce" || ent.question == "cine") = true
  · simp [h1, ht]
  · simp only [Bool.not_eq_true] at h1
    by_cases h3 : ent.question == "ROOT"
    · simp [h1, hq, h3, ht]
    · simp only [Bool.not_eq_true] at h3
      simp [h1, hq, h3, ht]

theorem get_time_foldl_times_nil :
    ∀ (roles : List Entity) (st : GetTimeState),
      (∀ ent ∈ roles,
        (ent.question == "când" || ent.question == "cât timp") = false) →
      st.2.2.1 = [] → (roles.foldl get_time_step st).2.2.1 = []
  | [], st, _, ht => ht
  | ent :: rest, st, h, ht => by
    rw [List.foldl_cons]
    exact get_time_foldl_times_nil rest (get_time_step st ent)
      (fun e he => h e (List.mem_cons_of_mem ent he))
      (get_time_step_times_nil st ent (h ent (List.mem_cons_self ent rest)) ht)

theorem store_time_foldl_time_none :
    ∀ (roles : List Entity) (st : StoreTimeState),
      (∀ ent ∈ roles,
        (ent.question == "când" || ent.question == "cât timp") = false) →
      st.2.2.1 = none → (roles.foldl store_time_step st).2.2.1 = none
  | [], st, _, ht => ht
  | ent :: rest, st, h, ht => by
    rw [List.foldl_cons]
    exact store_time_foldl_time_none rest (store_time_step st ent)
      (fun e he => h e (List.mem_cons_of_mem ent he))
      (store_time_step_time_none st ent (h ent (List.mem_cons_self ent rest)) ht)

/-- Claim C8 (refuted on the code): for every incoming role list containing
no `când` / `cât timp` entity, `ActionGetTime.run` raises `IndexError` at
`times[0]` and `ActionStoreTime.run` raises `TypeError` inside
`get_time_type(None, action)` — both before the extraction-failure message
could ever be delivered, because the crashing call precedes the entity
guard. -/
theorem c8_missing_time_raises (roles : List Entity)
    (h : ∀ ent ∈ roles,
      (ent.question == "când" || ent.question == "cât timp") = false) :
    action_get_time_run roles = .raised "IndexError: list index out of range" ∧
    action_store_time_run roles =
      .raised "TypeError: NoneType object is not subscriptable" ∧
    action_get_time_run roles ≠ .uttered entity_extraction_failure_msg ∧
    action_store_time_run roles ≠ .uttered entity_extraction_failure_msg := by
  have hg := get_time_foldl_times_nil roles (none, none, [], true) h rfl
  have hs := store_time_foldl_time_none roles (none, none, none, true) h rfl
  unfold action_get_time_run action_store_time_run
  rcases hfg : roles.foldl get_time_step (none, none, [], true) with
    ⟨entity, action, times, simple⟩
  rcases hfs : roles.foldl store_time_step (none, none, none, true) with
    ⟨entity', action', time, simple'⟩
  rw [hfg] at hg
  rw [hfs] at hs
  simp only at hg hs
  subst hg hs
  refine ⟨rfl, rfl, ?_, ?_⟩ <;> intro hcon <;> exact ActionOutcome.noConfusion hcon

/-- Witness for claim C8 at the concrete role list of a message that carries
only a subject entity (for instance "eu"), with no time role. -/
theorem c8_missing_time_raises_witness :
    action_get_time_run [.mk "cine" none "eu" "eu" "eu" []] =
      .raised "IndexError: list index out of range" ∧
    action_store_time_run [.mk "cine" none "eu" "eu" "eu" []] =
      .raised "TypeError: NoneType object is not subscriptable" := by
  have h := c8_missing_time_raises [.mk "cine" none "eu" "eu" "eu" []]
    (by decide)
  exact ⟨h.1, h.2.1⟩

/-- A node of the dependency tree handed to
`SyntacticParser.__get_dependency_span`: the token's index in the document,
its dependency-role label, and its children.  Dependency trees are acyclic by
construction of the external parser, which the inductive type enforces. -/
inductive DepTree where
  | node (idx : Nat) (dep : String) (children : List DepTree)

def DepTree.idx : DepTree → Nat
  | .node i _ _ => i

def DepTree.dep : DepTree → String
  | .node _ d _ => d

def DepTree.children : DepTree → List DepTree
  | .node _ _ cs => cs

/-- The state `(first, last, prep_first, prep_last)` threaded through the
`dfs` of `__get_dependency_span`. -/
structure SpanAcc where
  first : Nat
  last : Nat
  prepFirst : Option Nat
  prepLast : Option Nat

/-- The descend test of `dfs` (`syntactic_parser.py` lines 155-156): always
follow `-`, `prep` and `cât` children; follow the specifier roles `care`,
`ce fel de`, `al cui` only when `include_all_deps` is set. -/
def dfsDescend (include_all_deps : Bool) (dep : String) : Bool :=
  dep == "-" || dep == "prep" || dep == "cât" ||
  (include_all_deps &&
    (dep == "care" || dep == "ce fel de" || dep == "al cui"))

mutual

/-- Embedding of the `dfs` of `SyntacticParser.__get_dependency_span`
(`syntactic_parser.py` lines 146-166): start from the node's own index, fold
over the children in order, merging `first`/`last` bounds of descended
non-preposition children and overwriting the single preposition sub-span with
the bounds of each descended `prep` child. -/
def dfs (b : Bool) : DepTree → SpanAcc
  | .node i _ children => dfsChildren b children ⟨i, i, none, none⟩

/-- The child loop of `dfs`, processing children left to right. -/
def dfsChildren (b : Bool) : List DepTree → SpanAcc → SpanAcc
  | [], st => st
  | child :: rest, st =>
    let st' :=
      if dfsDescend b child.dep then
        let r := dfs b child
        if child.dep == "prep" then
          ⟨st.first, st.last, some r.first, some r.last⟩
        else
          ⟨min st.first r.first, max st.last r.last, st.prepFirst, st.prepLast⟩
      else st
    dfsChildren b rest st'

end

theorem dfsChildren_first_le (b : Bool) :
    ∀ (cs : List DepTree) (st : SpanAcc),
      (dfsChildren b cs st).first ≤ st.first ∧
        st.last ≤ (dfsChildren b cs st).last
  | [], st => ⟨le_refl _, le_refl _⟩
  | child :: rest, st => by
    unfold dfsChildren
    by_cases hd : dfsDescend b child.dep
    · by_cases hp : child.dep == "prep"
      · simpa [hd, hp] using dfsChildren_first_le b rest
          ⟨st.first, st.last, some (dfs b child).first, some (dfs b child).last⟩
      · have h := dfsChildren_first_le b rest
          ⟨min st.first (dfs b child).first, max st.last (dfs b child).last,
           st.prepFirst, st.prepLast⟩
        simp only [hd, hp] at h ⊢
        simp only [if_true, if_false, Bool.false_eq_true, if_pos, if_neg]
        refine ⟨le_trans h.1 ?_, le_trans ?_ h.2⟩
        · exact min_le_left _ _
        · exact le_max_left _ _
    · simpa [hd] using dfsChildren_first_le b rest st

theorem dfsChildren_child_bounds (b : Bool) :
    ∀ (cs : List DepTree) (st : SpanAcc) (c : DepTree), c ∈ cs →
      dfsDescend b c.dep = true → (c.dep == "prep") = false →
      (dfsChildren b cs st).first ≤ (dfs b c).first ∧
        (dfs b c).last ≤ (dfsChildren b cs st).last
  | [], st, c, hc, _, _ => absurd hc (List.not_mem_nil c)
  | child :: rest, st, c, hc, hd, hp => by
    rcases List.mem_cons.mp hc with rfl | hmem
    · unfold dfsChildren
      simp only [hd, hp, if_true, if_neg, Bool.false_eq_true, if_pos]
      have h := dfsChildren_first_le b rest
        ⟨min st.first (dfs b c).first, max st.last (dfs b c).last,
         st.prepFirst, st.prepLast⟩
      refine ⟨le_trans h.1 ?_, le_trans ?_ h.2⟩
      · exact min_le_right _ _
      · exact le_max_right _ _
    · unfold dfsChildren
      exact dfsChildren_child_bounds b rest _ c hmem hd hp

theorem dfsChildren_prep (b : Bool) :
    ∀ (cs : List DepTree) (st : SpanAcc),
      ((dfsChildren b cs st).prepFirst = st.prepFirst ∧
        (dfsChildren b cs st).prepLast = st.prepLast) ∨
      ∃ c ∈ cs, (c.dep == "prep") = true ∧
        (dfsChildren b cs st).prepFirst = some (dfs b c).first ∧
        (dfsChildren b cs st).prepLast = some (dfs b c).last
  | [], st => Or.inl ⟨rfl, rfl⟩
  | child :: rest, st => by
    by_cases hp : (child.dep == "prep") = true
    · have hd : dfsDescend b child.dep = true := by
        unfold dfsDescend
        simp [hp]
      unfold dfsChildren
      simp only [hd, hp, if_true, if_pos]
      rcases dfsChildren_prep b rest
        ⟨st.first, st.last, some (dfs b child).first, some (dfs b child).last⟩ with
        h | ⟨c, hc, hcp, h1, h2⟩
      · exact Or.inr ⟨child, List.mem_cons_self child rest, hp, h.1, h.2⟩
      · exact Or.inr ⟨c, List.mem_cons_of_mem child hc, hcp, h1, h2⟩
    · have hst' :
          (if dfsDescend b child.dep then
            if child.dep == "prep" then
              (⟨st.first, st.last, some (dfs b child).first,
                some (dfs b child).last⟩ : SpanAcc)
            else
              ⟨min st.first (dfs b child).first, max st.last (dfs b child).last,
               st.prepFirst, st.prepLast⟩
          else st).prepFirst = st.prepFirst ∧
          (if dfsDescend b child.dep then
            if child.dep == "prep" then
              (⟨st.first, st.last, some (dfs b child).first,
                some (dfs b child).last⟩ : SpanAcc)
            else
              ⟨min st.first (dfs b child).first, max st.last (dfs b child).last,
               st.prepFirst, st.prepLast⟩
          else st).prepLast = st.prepLast := by
        by_cases hd : dfsDescend b child.dep <;> simp [hd, hp]
      unfold dfsChildren
      rcases dfsChildren_prep b rest
        (if dfsDescend b child.dep then
          if child.dep == "prep" then
            ⟨st.first, st.last, some (dfs b child).first, some (dfs b child).last⟩
          else
            ⟨min st.first (dfs b child).first, max st.last (dfs b child).last,
             st.prepFirst, st.prepLast⟩
        else st) with h | ⟨c, hc, hcp, h1, h2⟩
      · exact Or.inl ⟨h.1.trans hst'.1, h.2.trans hst'.2⟩
      · exact Or.inr ⟨c, List.mem_cons_of_mem child hc, hcp, h1, h2⟩

/-- Claim C9: for every dependency-tree node the span traversal returns
bounds containing the anchor token's own index (`first ≤ idx ≤ last`); the
bounds of every descended non-preposition child are merged into — hence
contained in — the final bounds; and at most one preposition sub-span is
returned no matter how many preposition children the node has: the
preposition slot is either empty or carries the bounds of exactly one
preposition child (each later preposition child overwrites it). -/
theorem c9_dependency_span_bounds (b : Bool) (t : DepTree) :
    (dfs b t).first ≤ t.idx ∧ t.idx ≤ (dfs b t).last ∧
    (∀ c ∈ t.children, dfsDescend b c.dep = true → (c.dep == "prep") = false →
      (dfs b t).first ≤ (dfs b c).first ∧ (dfs b c).last ≤ (dfs b t).last) ∧
    (((dfs b t).prepFirst = none ∧ (dfs b t).prepLast = none) ∨
      ∃ c ∈ t.children, (c.dep == "prep") = true ∧
        (dfs b t).prepFirst = some (dfs b c).first ∧
        (dfs b t).prepLast = some (dfs b c).last) := by
  cases t with
  | node i d cs =>
    have h1 := dfsChildren_first_le b cs ⟨i, i, none, none⟩
    refine ⟨h1.1, h1.2, ?_, ?_⟩
    · intro c hc hd hp
      exact dfsChildren_child_bounds b cs ⟨i, i, none, none⟩ c hc hd hp
    · exact dfsChildren_prep b cs ⟨i, i, none, none⟩

/-- A concrete dependency tree for the witness of claim C9: anchor token 2
with a preposition child subtree (tokens 0-1) and a continuation child
(token 3). -/
def witnessTree : DepTree :=
  .node 2 "ROOT" [.node 0 "prep" [.node 1 "-" []], .node 3 "-" []]

/-- Witness for claim C9 at `witnessTree`, instantiating the child
quantifier with the continuation child (token 3) and exhibiting the
preposition sub-span. -/
theorem c9_dependency_span_bounds_witness :
    (dfs false witnessTree).first ≤ 2 ∧ 2 ≤ (dfs false witnessTree).last ∧
    ((dfs false witnessTree).first ≤ (dfs false (.node 3 "-" [])).first ∧
      (dfs false (.node 3 "-" [])).last ≤ (dfs false witnessTree).last) ∧
    (((dfs false witnessTree).prepFirst = none ∧
        (dfs false witnessTree).prepLast = none) ∨
      ∃ c ∈ witnessTree.children, (c.dep == "prep") = true ∧
        (dfs false witnessTree).prepFirst = some (dfs false c).first ∧
        (dfs false witnessTree).prepLast = some (dfs false c).last) := by
  have h := c9_dependency_span_bounds false witnessTree
  refine ⟨h.1, h.2.1, ?_, h.2.2.2⟩
  exact h.2.2.1 (.node 3 "-" [])
    (List.mem_cons_of_mem _ (List.mem_cons_self _ _)) rfl rfl
